import Mathlib

/-!
Verification development for the product-advisor RAG HTTP API.

The embedding below translates the JavaScript sources of the repository
into Lean. The authoritative files are the refactored application that the
container actually runs (`src/controllers/chatController.js`, here
`handleQuery`; `src/services/cacheService.js`; `src/services/memoryService.js`;
`src/services/ragService.js`; `db.mjs`). External systems (the Mongo
document store, the Qdrant vector store, the LLM provider, the JS builtins
`JSON.parse` / `JSON.stringify` and the string coercion `String(v)`) are
modelled as oracles carried in an environment record; each oracle field
models one temporal call site of the single request being analysed.
Side effects (store writes, LLM calls) are returned as an explicit effect
list.
-/

/-- JavaScript/JSON values. Numbers are abstracted to their truthiness bit
(zero/NaN versus everything else); no claim inspects a numeric value, and
string coercion of non-string values is an environment oracle. `null` also
stands for JS `undefined` where only truthiness and field access matter. -/
inductive Json where
  | null
  | bool (b : Bool)
  | num (truthy : Bool)
  | str (s : String)
  | arr (elems : List Json)
  | obj (fields : List (String × Json))

/-- JS truthiness of a value. Arrays and objects are always truthy
(including the empty array and the empty object). -/
def jsTruthy : Json → Bool
  | Json.null => false
  | Json.bool b => b
  | Json.num t => t
  | Json.str s => !(s == "")
  | Json.arr _ => true
  | Json.obj _ => true

/-- Field lookup in an object field list (first binding wins). -/
def lookupField : List (String × Json) → String → Option Json
  | [], _ => none
  | (k', v) :: rest, k => if k' == k then some v else lookupField rest k

/-- JS property read `v.k`: `none` models `undefined` (missing property or
non-object receiver). -/
def getField : Json → String → Option Json
  | Json.obj fs, k => lookupField fs k
  | _, _ => none

/-- Replace the binding of `k` (or append it) in an object field list. -/
def setFieldList : List (String × Json) → String → Json → List (String × Json)
  | [], k, v => [(k, v)]
  | (k', v') :: rest, k, v =>
    if k' == k then (k, v) :: rest else (k', v') :: setFieldList rest k v

/-- JS property write `v.k = x` on an object (identity on non-objects,
which never happens at the call sites embedded below). -/
def setField : Json → String → Json → Json
  | Json.obj fs, k, v => Json.obj (setFieldList fs k v)
  | j, _, _ => j

/-- Does `pat` occur as a prefix of `s` (on character lists)? -/
def hasPrefixL : List Char → List Char → Bool
  | [], _ => true
  | _ :: _, [] => false
  | p :: ps, c :: cs => p == c && hasPrefixL ps cs

/-- Does `pat` occur as a substring of `s` (on character lists)? -/
def containsSubL (pat : List Char) : List Char → Bool
  | [] => hasPrefixL pat []
  | c :: rest => hasPrefixL pat (c :: rest) || containsSubL pat rest

/-- JS `s.includes(pat)`. -/
def sIncludes (s pat : String) : Bool := containsSubL pat.data s.data

/-- JS `s.startsWith(pat)`. -/
def jsStartsWith (s pat : String) : Bool := hasPrefixL pat.data s.data

/-- The whitespace class of JS regular expressions (`\s`) and of JS
`String.prototype.trim`. -/
def isJsWhitespace (c : Char) : Bool :=
  c == ' ' || c == '\t' || c == '\n' || c == '\r' ||
  c.val == 11 || c.val == 12 || c.val == 0xa0 || c.val == 0x1680 ||
  (0x2000 ≤ c.val && c.val ≤ 0x200a) ||
  c.val == 0x2028 || c.val == 0x2029 || c.val == 0x202f ||
  c.val == 0x205f || c.val == 0x3000 || c.val == 0xfeff

/-- JS `s.trim()`. -/
def jsTrim (s : String) : String :=
  String.mk (((s.data.dropWhile isJsWhitespace).reverse.dropWhile isJsWhitespace).reverse)

/-- JS `Array.prototype.join(sep)` on a list of strings. -/
def jsJoin (sep : String) : List String → String
  | [] => ""
  | [x] => x
  | x :: y :: rest => x ++ sep ++ jsJoin sep (y :: rest)

/-- JS `s.replace(pat, repl)` for a plain-string pattern: replaces the
first occurrence only (character-list worker). -/
def replaceFirstL (pat repl : List Char) : List Char → List Char
  | [] => if hasPrefixL pat [] then repl else []
  | c :: rest =>
    if hasPrefixL pat (c :: rest) then repl ++ (c :: rest).drop pat.length
    else c :: replaceFirstL pat repl rest

/-- JS `s.replace(pat, repl)` for a plain-string pattern. -/
def jsReplaceFirst (s pat repl : String) : String :=
  String.mk (replaceFirstL pat.data repl.data s.data)

/-- Three backticks, the fence delimiter of the markdown-cleaning regex. -/
def fenceStr : String := "```"

/-- The characters of `json`, the optional language tag of the regex. -/
def jsonTagStr : String := "json"

/-- Split a character list at the first occurrence of the fence "```":
returns the part strictly before it and the part strictly after it. -/
def splitFence : List Char → Option (List Char × List Char)
  | [] => none
  | c :: rest =>
    if hasPrefixL fenceStr.data (c :: rest) then some ([], (c :: rest).drop 3)
    else
      match splitFence rest with
      | some (b, a) => some (c :: b, a)
      | none => none

/-- The first capture group of the JS regex match
`s.match(/```(?:json)?\s*([\s\S]*?)```/)`, or `none` when the regex does
not match. The backtracking semantics of the regex collapse to this
first-occurrence search: a match can only start at the first occurrence of
"```" (every later occurrence lies beyond any viable closing fence), the
greedy `(?:json)?` branch succeeds exactly when the non-greedy alternative
would (the skipped `json` letters and the skipped whitespace can never
contain a backtick, so both branches find the same closing fence or none),
and the lazy group therefore spans from the end of the whitespace run to
the next occurrence of "```". -/
def fenceGroup (s : List Char) : Option (List Char) :=
  match splitFence s with
  | none => none
  | some (_, afterOpen) =>
    let afterTag :=
      if hasPrefixL jsonTagStr.data afterOpen then afterOpen.drop 4 else afterOpen
    let afterWs := afterTag.dropWhile isJsWhitespace
    match splitFence afterWs with
    | some (g, _) => some g
    | none => none

/-- The `cleanedOutput` computed by `handleQuery` before `JSON.parse`:
when the raw LLM output contains "```" and the fence regex matches with a
truthy (non-empty) first group, the trimmed group; otherwise the raw
output unchanged. -/
def cleanedOutput (s : String) : String :=
  if sIncludes s fenceStr then
    match fenceGroup s.data with
    | some g => if g.isEmpty then s else jsTrim (String.mk g)
    | none => s
  else s

/-- A conversation turn as stored by the app: `{ role, content, timestamp }`.
Role and content are strings (this app only ever writes strings there, and
the template-literal rendering is the identity on strings). -/
structure ConvEntry where
  role : String
  content : String
  ts : Nat
deriving Repr, DecidableEq

/-- The conversation document fetched from the Mongo store.
`entries = none` models a document whose `entries` property is missing. -/
structure ConvData where
  conversationId : String
  entries : Option (List ConvEntry)

/-- The value stored by a `loaderCustomSet` write. -/
inductive StoredDoc where
  | cacheDoc (data : Json) (ts : Nat)
  | memoryDoc (text : String) (ts : Nat)

/-- An observable side effect of one request: a store write or an LLM
call. Reads are pure in this single-request model and are answered by the
environment oracles. Write effects record the attempted call (persistence
of a write whose promise rejected is up to the external store, so the
attempt list over-approximates what is persisted). -/
inductive Effect where
  | addConversation (userId : String)
  | addEntry (userId : String) (role content : String) (ts : Nat)
  | customSet (userId key : String) (doc : StoredDoc)
  | llmQuery (prompt : String)

/-- The strings of `config/prompts.json` used by `handleQuery`. -/
structure PromptConfig where
  systemPreamble : String
  answerFieldDetails : String
  relatedProductsFieldDetails : String
  closingInstruction : String
  summarizationInstruction : String

/-- One child record of the user profile in the request body (fields
already coerced to strings; the empty-string default applied by the code
is the identity on a string-typed field). -/
structure Child where
  name : String
  age : String
  gender : String
  birthday : String

/-- The environment of one request: initialization flags, the outcome of
every external call the request can make (each field models one temporal
call site; `Except.error` models a rejected promise), and the JS builtins
`JSON.parse`, `JSON.stringify` and `String(v)` as oracles. -/
structure Env where
  ragInit : Bool
  promptConfig : Option PromptConfig
  storeInit : Bool
  hasAddConversationFn : Bool
  hasAddEntryFn : Bool
  hasCustomSetFn : Bool
  cacheGetResult : Except Unit Json
  memoryGetResult : Except Unit Json
  hasConvResult : Except Unit Bool
  getConvResult : Except Unit (Option ConvData)
  addConvOutcome : Except Unit Unit
  getConvAfterAdd : Except Unit (Option ConvData)
  getConvFresh : Except Unit (Option ConvData)
  ragOutcome : Except Unit Json
  summarizeOutcome : Except Unit Json
  addEntryOutcome1 : Except Unit Unit
  addEntryOutcome2 : Except Unit Unit
  cacheSetOutcome : Except Unit Unit
  memorySetOutcome : Except Unit Unit
  dbInit : Bool
  dbQuery : Json → Except Unit (List Json)
  jsonParse : String → Except Unit Json
  stringifyMD : Json → String
  strCoerce : Json → String
  now : Nat

/-- JS string coercion `String(v)` / template-literal interpolation:
the identity on strings, the environment oracle otherwise. -/
def jsStringOf (env : Env) : Json → String
  | Json.str s => s
  | v => env.strCoerce v

/-- One step of a JS `a || b` chain over a field read: the field value
when truthy, the fallback otherwise (`undefined` is falsy). -/
def jsOrPick (r : Json) (k : String) (next : Json) : Json :=
  match getField r k with
  | some v => if jsTruthy v then v else next
  | none => next

/-- The extraction chain `result.answer || result.content || result.text
|| result.response` with empty-string default, applied to a RAG result
object. -/
def jsOrChain (r : Json) : Json :=
  jsOrPick r "answer" (jsOrPick r "content" (jsOrPick r "text" (jsOrPick r "response" (Json.str ""))))

/-- Embeds `CacheService.generateCacheKey` (cacheService.js:13-16):
`` `cache:${userId}:${query}:${JSON.stringify(userMetadata || {})}` ``. -/
def generateCacheKey (stringify : Json → String) (userId query : String)
    (userMetadata : Option Json) : String :=
  let md : Json :=
    match userMetadata with
    | some m => if jsTruthy m then m else Json.obj []
    | none => Json.obj []
  "cache:" ++ userId ++ ":" ++ query ++ ":" ++ stringify md

/-- Embeds `CacheService.getCachedResult` (cacheService.js:18-42): `null`
when the service is uninitialized, when the store read rejects, or when
the fetched document or its `data` field is falsy; otherwise the `data`
field of the document. -/
def getCachedResult (env : Env) (userId query : String) (userMetadata : Option Json) :
    Option Json :=
  let _cacheKey := generateCacheKey env.stringifyMD userId query userMetadata
  if !env.storeInit then none
  else
    match env.cacheGetResult with
    | Except.error _ => none
    | Except.ok doc =>
      if jsTruthy doc then
        match getField doc "data" with
        | some d => if jsTruthy d then some d else none
        | none => none
      else none

/-- Embeds `CacheService.setCachedResult` (cacheService.js:44-64): writes
`{ data, timestamp }` under the cache key; returns whether it succeeded.
The write attempt enters the effect list even when the store rejects it. -/
def setCachedResult (env : Env) (userId query : String) (userMetadata : Option Json)
    (data : Json) : Bool × List Effect :=
  if !env.storeInit then (false, [])
  else if !env.hasCustomSetFn then (false, [])
  else
    let cacheKey := generateCacheKey env.stringifyMD userId query userMetadata
    let eff := Effect.customSet userId cacheKey (StoredDoc.cacheDoc data env.now)
    match env.cacheSetOutcome with
    | Except.error _ => (false, [eff])
    | Except.ok _ => (true, [eff])

/-- Embeds `MemoryService.getConversationMemory` (memoryService.js:12-36):
the `text` field of the stored last-summary document when that document and
its `text` field are truthy, otherwise the empty string. The returned JS
value is kept as `Json` because a non-string truthy `text` would make the
caller crash on `.trim()`. -/
def getConversationMemory (env : Env) (_userId : String) : Json :=
  if !env.storeInit then Json.str ""
  else
    match env.memoryGetResult with
    | Except.error _ => Json.str ""
    | Except.ok doc =>
      if jsTruthy doc then
        match getField doc "text" with
        | some t => if jsTruthy t then t else Json.str ""
        | none => Json.str ""
      else Json.str ""

/-- Embeds `MemoryService.getConversationHistory` (memoryService.js:38-73):
fetches (or creates) the conversation document, falling back to a local
`{ conversationId, entries: [] }` on any error. -/
def getConversationHistory (env : Env) (userId : String) :
    Option ConvData × List Effect :=
  if !env.storeInit then (some ⟨userId, some []⟩, [])
  else
    match env.hasConvResult with
    | Except.error _ => (some ⟨userId, some []⟩, [])
    | Except.ok true =>
      match env.getConvResult with
      | Except.error _ => (some ⟨userId, some []⟩, [])
      | Except.ok conv => (conv, [])
    | Except.ok false =>
      if env.hasAddConversationFn then
        match env.addConvOutcome with
        | Except.error _ => (some ⟨userId, some []⟩, [Effect.addConversation userId])
        | Except.ok _ =>
          match env.getConvAfterAdd with
          | Except.error _ => (some ⟨userId, some []⟩, [Effect.addConversation userId])
          | Except.ok none => (some ⟨userId, some []⟩, [Effect.addConversation userId])
          | Except.ok (some c) => (some c, [Effect.addConversation userId])
      else (some ⟨userId, some []⟩, [])

/-- Embeds `MemoryService.addConversationEntries` (memoryService.js:75-101):
appends the user turn then the bot turn, returning `false` when the store
is unavailable or either append rejects. -/
def addConversationEntries (env : Env) (userId userQuery botResponse : String) :
    Bool × List Effect :=
  if !env.storeInit || !env.hasAddEntryFn then (false, [])
  else
    let userEff := Effect.addEntry userId "User" userQuery env.now
    let botEff := Effect.addEntry userId "Bot" botResponse env.now
    match env.addEntryOutcome1 with
    | Except.error _ => (false, [userEff])
    | Except.ok _ =>
      match env.addEntryOutcome2 with
      | Except.error _ => (false, [userEff, botEff])
      | Except.ok _ => (true, [userEff, botEff])

/-- Rendering of one conversation turn: `` `${turn.role}: ${turn.content}` ``. -/
def renderTurn (e : ConvEntry) : String := e.role ++ ": " ++ e.content

/-- The JS expression `(conversationData && conversationData.entries) ?
conversationData.entries : []`. -/
def entriesOf : Option ConvData → List ConvEntry
  | some c => c.entries.getD []
  | none => []

/-- Embeds `RagService.summarizeConversation` (ragService.js:80-97): fills
the summarization prompt template (JS `replace` swaps only the first
occurrence of each placeholder), queries the LLM, extracts the summary via
the `||` chain, and returns the fixed error string when the LLM call
rejects. `Except.error` models the throw on an uninitialized RAG app. -/
def summarizeConversation (env : Env) (userId conversationHistoryText promptTemplate : String) :
    Except Unit Json × List Effect :=
  if !env.ragInit then (Except.error (), [])
  else
    let filledPrompt :=
      jsReplaceFirst
        (jsReplaceFirst promptTemplate "\x7b\x7buserId\x7d\x7d" userId)
        "\x7b\x7bconversationHistoryText\x7d\x7d" conversationHistoryText
    match env.summarizeOutcome with
    | Except.error _ =>
      (Except.ok (Json.str "Error performing summarization."), [Effect.llmQuery filledPrompt])
    | Except.ok r => (Except.ok (jsOrChain r), [Effect.llmQuery filledPrompt])

/-- Embeds `MemoryService.summarizeAndStoreMemory` (memoryService.js:103-141):
refetches the conversation, summarizes when the entry count is positive and
divisible by 10, and stores the summary under `memory:<userId>:last_summary`
when the summary is truthy and starts with neither error prefix; returns
whether a summary was stored. A non-string truthy summary throws on
`.startsWith` and is caught (returning `false`), as is a rejected store
write. This is the core on an explicit entries list
(memoryService.js:113-134). -/
def summarizeCore (env : Env) (userId promptTemplate : String)
    (historyEntries : List ConvEntry) : Bool × List Effect :=
  if 0 < historyEntries.length && historyEntries.length % 10 == 0 then
    let historyTextForSummary := jsJoin "\n" (historyEntries.map renderTurn)
    match summarizeConversation env userId historyTextForSummary promptTemplate with
    | (Except.error _, sEffs) => (false, sEffs)
    | (Except.ok summary, sEffs) =>
      if jsTruthy summary then
        match summary with
        | Json.str s =>
          if !(jsStartsWith s "Error") && !(jsStartsWith s "Could not summarize") then
            if env.hasCustomSetFn then
              let eff := Effect.customSet userId ("memory:" ++ userId ++ ":last_summary")
                (StoredDoc.memoryDoc s env.now)
              match env.memorySetOutcome with
              | Except.error _ => (false, sEffs ++ [eff])
              | Except.ok _ => (true, sEffs ++ [eff])
            else (false, sEffs)
          else (false, sEffs)
        | _ => (false, sEffs)
      else (false, sEffs)
  else (false, [])

/-- The glue of `summarizeAndStoreMemory` around `summarizeCore`: fetch
the fresh conversation, falling back to no-op on missing store or a
rejected fetch. -/
def summarizeAndStoreMemory (env : Env) (userId promptTemplate : String) :
    Bool × List Effect :=
  if !env.storeInit then (false, [])
  else
    match env.getConvFresh with
    | Except.error _ => (false, [])
    | Except.ok conv =>
      summarizeCore env userId promptTemplate (entriesOf conv)

/-- Embeds `getProductsBySKUs` (db.mjs:144-169 and its Mongo twin at
db.mjs:278-297): the empty list when the database handle is missing, when
the argument is not an array or is the empty array, or when the query
rejects; otherwise the rows the database returns. -/
def getProductsBySKUs (env : Env) (skus : Json) : List Json :=
  if !env.dbInit then []
  else
    match skus with
    | Json.arr l =>
      if l.length == 0 then []
      else
        match env.dbQuery (Json.arr l) with
        | Except.ok rows => rows
        | Except.error _ => []
    | _ => []

/-- An HTTP response of `handleQuery` (status plus JSON body). -/
inductive HttpResp where
  | ok (body : Json)
  | badRequest (body : Json)
  | unavailable (body : Json)
  | serverError (body : Json)

/-- An `{ answer, relatedProducts: [] }` body with a fixed answer. -/
def mkAnswerBody (answer : String) : Json :=
  Json.obj [("answer", Json.str answer), ("relatedProducts", Json.arr [])]

/-- The 500 body `{ answer, relatedProducts, details }`; the `details`
message text is irrelevant to every claim and left empty. -/
def errorBody : Json :=
  Json.obj [("answer", Json.str "Error processing your question"),
            ("relatedProducts", Json.arr []), ("details", Json.str "")]

/-- The fixed prefix of the fallback answer built in the parse catch. -/
def fallbackAnswerStart : String :=
  "I had a little trouble formatting my response perfectly. Here\x27s the main information: "

/-- The substring tested by `isValidResponse` to recognize the fallback. -/
def fallbackMarker : String := "I had a little trouble formatting my response"

/-- The fallback body built in the catch of the parse step:
`{ answer: prefix + (llmOutputString || "Not available"), relatedProducts: [] }`. -/
def fallbackResponse (env : Env) (llmOut : Json) : Json :=
  Json.obj
    [("answer", Json.str (fallbackAnswerStart ++
        (if jsTruthy llmOut then jsStringOf env llmOut else "Not available"))),
     ("relatedProducts", Json.arr [])]

/-- The SKU coercion: a string passes through, any other value goes
through the `String(sku)` conversion. -/
def coerceSku (env : Env) : Json → String
  | Json.str s => s
  | v => env.strCoerce v

/-- Embeds the parse-and-process step of `handleQuery`
(chatController.js:96-124): requires a non-empty string, strips a fenced
code block, parses it, validates the `{answer, relatedProducts}` shape,
coerces SKUs to strings and replaces `relatedProducts` with catalog rows;
every failure yields the fallback body. -/
def processLlmOutput (env : Env) (llmOut : Json) : Json :=
  match llmOut with
  | Json.str s =>
    if jsTrim s == "" then fallbackResponse env llmOut
    else
      match env.jsonParse (cleanedOutput s) with
      | Except.error _ => fallbackResponse env llmOut
      | Except.ok j =>
        match getField j "answer", getField j "relatedProducts" with
        | some (Json.str _), some (Json.arr l) =>
          let skuStrs := l.map (coerceSku env)
          let withSkus := setField j "relatedProducts" (Json.arr (skuStrs.map Json.str))
          let productDetails := getProductsBySKUs env (Json.arr (skuStrs.map Json.str))
          setField withSkus "relatedProducts" (Json.arr productDetails)
        | _, _ => fallbackResponse env llmOut
  | _ => fallbackResponse env llmOut

/-- Embeds the `isValidResponse` test of `handleQuery`
(chatController.js:127-128). -/
def isValidResponse (bot : Json) : Bool :=
  jsTruthy bot &&
  (match getField bot "answer" with
   | some (Json.str a) => !(jsTrim a == "") && !(sIncludes a fallbackMarker)
   | _ => false)

/-- The `answer` field of a body already known to be valid. -/
def answerStringOf (bot : Json) : String :=
  match getField bot "answer" with
  | some (Json.str a) => a
  | _ => ""

/-- The fixed head of the prompt (chatController.js:56). -/
def promptBase (pc : PromptConfig) : String :=
  pc.systemPreamble ++ "\n\n" ++ pc.answerFieldDetails ++ "\n\n" ++
  pc.relatedProductsFieldDetails ++ "\n\n"

/-- One child line of the user-profile prompt block. -/
def childLine (c : Child) : String :=
  "  - Name: " ++ c.name ++ ", Age: " ++ c.age ++ ", Gender: " ++ c.gender ++
  ", Birthday: " ++ c.birthday ++ "\n"

/-- The user-profile prompt block (chatController.js:58-68). -/
def profileSection (userName : String) (children : List Child) : String :=
  if !(userName == "") || 0 < children.length then
    "User profile:\n" ++
    (if !(userName == "") then "- Name: " ++ userName ++ "\n" else "") ++
    (if 0 < children.length then "- Children:\n" ++ String.join (children.map childLine)
     else "") ++ "\n"
  else ""

/-- The long-term-memory prompt block (chatController.js:70-72): present
exactly when the retrieved context trims to a non-empty string. -/
def memorySection (userId memText : String) : String :=
  if !(jsTrim memText == "") then
    "Relevant past information for " ++ userId ++ ":\n" ++ memText ++ "\n\n"
  else ""

/-- The conversation-history prompt block (chatController.js:76-82): the
last ten entries (`slice(-10)`), rendered `role: content` and joined with
newlines, the whole block present exactly when the rendering is non-empty. -/
def historySection (entries : List ConvEntry) : String :=
  let limitedHistoryEntries := entries.drop (entries.length - 10)
  let shortTermHistoryText := jsJoin "\n" (limitedHistoryEntries.map renderTurn)
  if !(shortTermHistoryText == "") then
    "Current conversation history:\n" ++ shortTermHistoryText ++ "\n\n"
  else ""

/-- The closing of the prompt (chatController.js:84). -/
def promptTail (pc : PromptConfig) (userQuery : String) : String :=
  "User\x27s current query: " ++ userQuery ++ "\n\n" ++ pc.closingInstruction

/-- The whole prompt sent to the LLM. -/
def buildPrompt (pc : PromptConfig) (userId userName : String) (children : List Child)
    (memText : String) (entries : List ConvEntry) (userQuery : String) : String :=
  promptBase pc ++ profileSection userName children ++ memorySection userId memText ++
  historySection entries ++ promptTail pc userQuery

/-- The JSON rendering of one child of the request body, as handed to
`JSON.stringify` inside the cache key. -/
def childJson (c : Child) : Json :=
  Json.obj [("name", Json.str c.name), ("age", Json.str c.age),
            ("gender", Json.str c.gender), ("birthday", Json.str c.birthday)]

/-- The `userMetadataForCacheKey` object `{ name: userName, children }`. -/
def userMetadataJson (userName : String) (children : List Child) : Json :=
  Json.obj [("name", Json.str userName),
            ("children", Json.arr (children.map childJson))]

/-- The cache-miss trunk of `handleQuery` (chatController.js:51-142),
from memory retrieval to the response, given the long-term memory context
already known to be the string `memText`. -/
def handleQueryMain (env : Env) (pc : PromptConfig)
    (userQuery userId userName : String) (children : List Child)
    (memText : String) : HttpResp × List Effect :=
  let userMetadataForCacheKey := userMetadataJson userName children
  let (conversationData, hEffs) := getConversationHistory env userId
  let currentEntries := entriesOf conversationData
  let promptForRAG := buildPrompt pc userId userName children memText currentEntries userQuery
  let qEff := Effect.llmQuery promptForRAG
  match env.ragOutcome with
  | Except.error _ => (HttpResp.serverError errorBody, hEffs ++ [qEff])
  | Except.ok result =>
    let llmOut := jsOrChain result
    let bot := processLlmOutput env llmOut
    if isValidResponse bot then
      let (_, aEffs) := addConversationEntries env userId userQuery (answerStringOf bot)
      let (_, cEffs) :=
        setCachedResult env userId userQuery (some userMetadataForCacheKey) bot
      let (_, sEffs) := summarizeAndStoreMemory env userId pc.summarizationInstruction
      (HttpResp.ok bot, hEffs ++ [qEff] ++ aEffs ++ cEffs ++ sEffs)
    else (HttpResp.ok bot, hEffs ++ [qEff])

/-- Embeds `handleQuery` (chatController.js:21-152) for a request that
carries the string query `userQuery` (empty when missing) and the profile
fields `userName` / `children`. A truthy non-string long-term memory
context crashes on `.trim()` into the outer catch (500); a falsy one
skips the memory block exactly as an empty string does. -/
def handleQuery (env : Env) (endpointName userQuery userId userName : String)
    (children : List Child) : HttpResp × List Effect :=
  if userQuery == "" then
    (HttpResp.badRequest (mkAnswerBody "Query is required."), [])
  else
    match env.promptConfig with
    | none =>
      (HttpResp.unavailable (mkAnswerBody
        ("RAG system or prompt configuration not initialized yet for " ++ endpointName)), [])
    | some pc =>
      if !env.ragInit then
        (HttpResp.unavailable (mkAnswerBody
          ("RAG system or prompt configuration not initialized yet for " ++ endpointName)), [])
      else
        match getCachedResult env userId userQuery (some (userMetadataJson userName children)) with
        | some cachedResult => (HttpResp.ok cachedResult, [])
        | none =>
          match getConversationMemory env userId with
          | Json.str t => handleQueryMain env pc userQuery userId userName children t
          | v =>
            if jsTruthy v then (HttpResp.serverError errorBody, [])
            else handleQueryMain env pc userQuery userId userName children ""

/-- A small concrete prompt configuration for witnesses. -/
def pcW : PromptConfig := ⟨"S", "A", "R", "C", "T"⟩

/-- A baseline concrete environment for witnesses: everything initialized,
all store calls succeed, cache and memory miss, conversation present and
empty, the LLM answers the string "hello", `JSON.parse` rejects. -/
def envBase : Env where
  ragInit := true
  promptConfig := some pcW
  storeInit := true
  hasAddConversationFn := true
  hasAddEntryFn := true
  hasCustomSetFn := true
  cacheGetResult := Except.ok Json.null
  memoryGetResult := Except.ok Json.null
  hasConvResult := Except.ok true
  getConvResult := Except.ok (some ⟨"u1", some []⟩)
  addConvOutcome := Except.ok ()
  getConvAfterAdd := Except.ok none
  getConvFresh := Except.ok (some ⟨"u1", some []⟩)
  ragOutcome := Except.ok (Json.obj [("answer", Json.str "hello")])
  summarizeOutcome := Except.ok (Json.obj [])
  addEntryOutcome1 := Except.ok ()
  addEntryOutcome2 := Except.ok ()
  cacheSetOutcome := Except.ok ()
  memorySetOutcome := Except.ok ()
  dbInit := true
  dbQuery := fun _ => Except.ok []
  jsonParse := fun _ => Except.error ()
  stringifyMD := fun _ => "md"
  strCoerce := fun _ => "coerced"
  now := 7

/-- Is this JS value a string? -/
def isStrJ : Json → Bool
  | Json.str _ => true
  | _ => false

/-- Is this effect a conversation-entry append? -/
def isAddEntry : Effect → Bool
  | Effect.addEntry _ _ _ _ => true
  | _ => false

/-- Is this effect a write of a cached-response record? -/
def isCacheSet : Effect → Bool
  | Effect.customSet _ _ (StoredDoc.cacheDoc _ _) => true
  | _ => false

/-- Is this effect an LLM call? -/
def isLlmQuery : Effect → Bool
  | Effect.llmQuery _ => true
  | _ => false

/-- Modelled from the spec words of claim C7 (first clause, read
literally): whenever the output contains "```", the text handed to the
JSON parser is the trimmed content of the first fenced code block matched
by the regex; when the output has no fence, or the pattern fails to
match, the raw output. -/
def claimedCleanedOutput (s : String) : String :=
  if sIncludes s fenceStr then
    match fenceGroup s.data with
    | some g => jsTrim (String.mk g)
    | none => s
  else s

/-- Ten identical conversation turns, for triggering summarization in
concrete environments. -/
def tenEntries : List ConvEntry := List.replicate 10 ⟨"User", "hi", 0⟩

/-- Environment refuting claim C3: the fresh conversation has ten
entries, so summarization triggers, and the summarization LLM result has
no truthy extractable field, so the extracted summary is the empty
string. -/
def envC3 : Env :=
  { envBase with
      getConvFresh := Except.ok (some ⟨"u1", some tenEntries⟩)
      summarizeOutcome := Except.ok (Json.obj []) }

/-- Environment witnessing a stored summary: ten fresh entries and a
well-formed summarization answer. -/
def envC10 : Env :=
  { envBase with
      getConvFresh := Except.ok (some ⟨"u1", some tenEntries⟩)
      summarizeOutcome := Except.ok (Json.obj [("answer", Json.str "Summary fine")]) }

/-- Environment witnessing a cache hit: the store returns a document with
truthy data. -/
def envHit : Env :=
  { envBase with
      cacheGetResult := Except.ok (Json.obj [("data", Json.obj [("answer", Json.str "cached")])]) }

/-- Environment witnessing the valid-response save path: the LLM returns
a parsable answer with one related SKU, and `JSON.parse` is instantiated
on exactly that string. -/
def envOk : Env :=
  { envBase with
      ragOutcome := Except.ok (Json.obj [("answer", Json.str "GOODJSON")])
      jsonParse := fun s =>
        if s == "GOODJSON" then
          Except.ok (Json.obj [("answer", Json.str "Try this toy."),
                               ("relatedProducts", Json.arr [Json.str "SKU1"])])
        else Except.error ()
      dbQuery := fun _ => Except.ok [Json.obj [("sku", Json.str "SKU1")]] }

/-- Twelve conversation turns, for exercising the ten-entry window. -/
def entries12 : List ConvEntry :=
  tenEntries ++ [⟨"User", "latest question", 1⟩, ⟨"Bot", "latest answer", 2⟩]

theorem hasPrefixL_self : ∀ p : List Char, hasPrefixL p p = true := by
  intro p
  induction p with
  | nil => rfl
  | cons c cs ih => simp [hasPrefixL, ih]

theorem hasPrefixL_append_right {p s : List Char} (t : List Char)
    (h : hasPrefixL p s = true) : hasPrefixL p (s ++ t) = true := by
  induction p generalizing s with
  | nil => rfl
  | cons c cs ih =>
    cases s with
    | nil => simp [hasPrefixL] at h
    | cons x xs =>
      simp only [hasPrefixL, Bool.and_eq_true] at h ⊢
      exact ⟨h.1, ih h.2⟩

theorem hasPrefixL_eq_append {p s : List Char} (h : hasPrefixL p s = true) :
    s = p ++ s.drop p.length := by
  induction p generalizing s with
  | nil => simp
  | cons c cs ih =>
    cases s with
    | nil => simp [hasPrefixL] at h
    | cons x xs =>
      simp only [hasPrefixL, Bool.and_eq_true, beq_iff_eq] at h
      simp only [List.length_cons, List.drop_succ_cons, List.cons_append, h.1]
      exact congrArg _ (ih h.2)

theorem containsSubL_of_hasPrefixL {p s : List Char} (h : hasPrefixL p s = true) :
    containsSubL p s = true := by
  cases s with
  | nil => exact h
  | cons c cs => simp [containsSubL, h]

theorem containsSubL_append_left {p t : List Char} (s : List Char)
    (h : containsSubL p t = true) : containsSubL p (s ++ t) = true := by
  induction s with
  | nil => exact h
  | cons c cs ih =>
    simp only [List.cons_append, containsSubL, Bool.or_eq_true]
    exact Or.inr ih

theorem splitFence_eq : ∀ {s b a : List Char}, splitFence s = some (b, a) →
    s = b ++ fenceStr.data ++ a := by
  intro s
  induction s with
  | nil => intro b a h; simp [splitFence] at h
  | cons c rest ih =>
    intro b a h
    unfold splitFence at h
    by_cases hp : hasPrefixL fenceStr.data (c :: rest) = true
    · rw [if_pos hp] at h
      injection h with h'
      injection h' with hb ha
      subst hb; subst ha
      have := hasPrefixL_eq_append hp
      simpa using this
    · rw [if_neg hp] at h
      cases hsf : splitFence rest with
      | none => rw [hsf] at h; exact absurd h (by simp)
      | some pr =>
        obtain ⟨b', a'⟩ := pr
        rw [hsf] at h
        injection h with h'
        injection h' with hb ha
        subst hb; subst ha
        have := ih hsf
        simp [this]

theorem splitFence_contains {s b a : List Char} (h : splitFence s = some (b, a)) :
    containsSubL fenceStr.data s = true := by
  rw [splitFence_eq h]
  rw [List.append_assoc]
  exact containsSubL_append_left b
    (containsSubL_of_hasPrefixL (hasPrefixL_append_right a (hasPrefixL_self _)))

theorem getField_some_obj {doc : Json} {k : String} {d : Json}
    (h : getField doc k = some d) : ∃ fs, doc = Json.obj fs := by
  cases doc <;> simp [getField] at h ⊢

theorem getField_some_jsTruthy {doc : Json} {k : String} {d : Json}
    (h : getField doc k = some d) : jsTruthy doc = true := by
  obtain ⟨fs, rfl⟩ := getField_some_obj h
  rfl

theorem lookupField_setFieldList (fs : List (String × Json)) (k : String) (v : Json) :
    lookupField (setFieldList fs k v) k = some v := by
  induction fs with
  | nil => simp [setFieldList, lookupField]
  | cons p rest ih =>
    obtain ⟨k', v'⟩ := p
    by_cases h : (k' == k) = true
    · simp [setFieldList, lookupField, h]
    · simp only [setFieldList, lookupField, h, if_false, Bool.false_eq_true]
      exact ih

theorem getField_setField {fs : List (String × Json)} (k : String) (v : Json) :
    getField (setField (Json.obj fs) k v) k = some v := by
  simp [setField, getField, lookupField_setFieldList]

/-- C4. `generateCacheKey(userId, query, userMetadata)` returns the
string `cache:<userId>:<query>:<JSON.stringify(md)>` where `md` is the
metadata (the empty object when the metadata is null or undefined); it is
deterministic in its argument triple, and omitted metadata produces the
same key as empty-object metadata. -/
theorem generateCacheKey_formula :
    (∀ (f : Json → String) (u q : String) (m : Json), jsTruthy m = true →
        generateCacheKey f u q (some m) = "cache:" ++ u ++ ":" ++ q ++ ":" ++ f m) ∧
    (∀ (f : Json → String) (u q : String),
        generateCacheKey f u q none = "cache:" ++ u ++ ":" ++ q ++ ":" ++ f (Json.obj [])) ∧
    (∀ (f : Json → String) (u q : String),
        generateCacheKey f u q (some Json.null) =
          "cache:" ++ u ++ ":" ++ q ++ ":" ++ f (Json.obj [])) ∧
    (∀ (f : Json → String) (u q : String),
        generateCacheKey f u q none = generateCacheKey f u q (some (Json.obj []))) ∧
    (∀ (f : Json → String) (u₁ q₁ u₂ q₂ : String) (m₁ m₂ : Option Json),
        u₁ = u₂ → q₁ = q₂ → m₁ = m₂ →
        generateCacheKey f u₁ q₁ m₁ = generateCacheKey f u₂ q₂ m₂) := by
  refine ⟨?_, ?_, ?_, ?_, ?_⟩
  · intro f u q m hm
    simp [generateCacheKey, hm]
  · intro f u q; rfl
  · intro f u q; rfl
  · intro f u q; rfl
  · intro f u₁ q₁ u₂ q₂ m₁ m₂ hu hq hm
    rw [hu, hq, hm]

/-- Witness for C4 at a concrete truthy metadata object. -/
theorem generateCacheKey_formula_witness :
    jsTruthy (userMetadataJson "Ann" []) = true ∧
    generateCacheKey (fun _ => "MD") "u1" "toys" (some (userMetadataJson "Ann" [])) =
      "cache:" ++ "u1" ++ ":" ++ "toys" ++ ":" ++ (fun _ => "MD") (userMetadataJson "Ann" []) :=
  ⟨rfl, generateCacheKey_formula.1 (fun _ => "MD") "u1" "toys" (userMetadataJson "Ann" []) rfl⟩

/-- C9. `getCachedResult` is total at its interface: it yields the stored
truthy `data` field of the stored document, or null; an uninitialized service, a
rejected store read, or a document without a truthy `data` field all
yield null, indistinguishable from a cache miss. -/
theorem getCachedResult_total (env : Env) (userId query : String) (md : Option Json) :
    (env.storeInit = false → getCachedResult env userId query md = none) ∧
    (env.cacheGetResult = Except.error () → getCachedResult env userId query md = none) ∧
    (∀ doc, env.cacheGetResult = Except.ok doc → getField doc "data" = none →
        getCachedResult env userId query md = none) ∧
    (∀ doc d, env.cacheGetResult = Except.ok doc → getField doc "data" = some d →
        jsTruthy d = false → getCachedResult env userId query md = none) ∧
    (∀ doc d, env.cacheGetResult = Except.ok doc → getField doc "data" = some d →
        jsTruthy d = true → env.storeInit = true →
        getCachedResult env userId query md = some d) ∧
    (getCachedResult env userId query md = none ∨
      ∃ doc d, env.cacheGetResult = Except.ok doc ∧ getField doc "data" = some d ∧
        jsTruthy d = true ∧ getCachedResult env userId query md = some d) := by
  refine ⟨?_, ?_, ?_, ?_, ?_, ?_⟩
  · intro h; simp [getCachedResult, h]
  · intro h; cases hs : env.storeInit <;> simp [getCachedResult, h, hs]
  · intro doc h hd
    cases hs : env.storeInit
    · simp [getCachedResult, hs]
    · simp [getCachedResult, hs, h, hd]
  · intro doc d h hd ht
    cases hs : env.storeInit
    · simp [getCachedResult, hs]
    · simp [getCachedResult, hs, h, hd, ht]
  · intro doc d h hd ht hs
    simp [getCachedResult, hs, h, hd, ht, getField_some_jsTruthy hd]
  · cases hs : env.storeInit
    · left; simp [getCachedResult, hs]
    · cases hc : env.cacheGetResult with
      | error e => left; simp [getCachedResult, hs, hc]
      | ok doc =>
        by_cases htd : jsTruthy doc = true
        · cases hd : getField doc "data" with
          | none => left; simp [getCachedResult, hs, hc, htd, hd]
          | some d =>
            by_cases htv : jsTruthy d = true
            · exact Or.inr ⟨doc, d, rfl, hd, htv,
                by simp [getCachedResult, hs, hc, htd, hd, htv]⟩
            · left
              simp [getCachedResult, hs, hc, htd, hd, htv]
        · left; simp [getCachedResult, hs, hc, htd]

/-- Witness for C9: an uninitialized cache service misses, and a stored
document with truthy data hits with exactly that data. -/
theorem getCachedResult_total_witness :
    getCachedResult { envBase with storeInit := false } "u1" "q" none = none ∧
    getCachedResult envHit "u1" "q" none = some (Json.obj [("answer", Json.str "cached")]) :=
  ⟨(getCachedResult_total { envBase with storeInit := false } "u1" "q" none).1 rfl,
   (getCachedResult_total envHit "u1" "q" none).2.2.2.2.1
     (Json.obj [("data", Json.obj [("answer", Json.str "cached")])])
     (Json.obj [("answer", Json.str "cached")]) rfl rfl rfl rfl⟩

theorem dropWhile_decomp (p : Char → Bool) (l : List Char) :
    ∃ tw, l = tw ++ l.dropWhile p ∧ tw = tw.takeWhile p := by
  refine ⟨l.takeWhile p, (List.takeWhile_append_dropWhile p l).symm, ?_⟩
  have h : ∀ x ∈ l.takeWhile p, p x = true := fun x hx => List.mem_takeWhile_imp hx
  exact (List.takeWhile_eq_self_iff.mpr h).symm

theorem fenceGroup_decomp {s : List Char} {g : List Char}
    (h : fenceGroup s = some g) :
    ∃ pre tag ws rest,
      s = pre ++ fenceStr.data ++ tag ++ ws ++ g ++ fenceStr.data ++ rest ∧
      (tag = [] ∨ tag = jsonTagStr.data) ∧ ws = ws.takeWhile isJsWhitespace := by
  unfold fenceGroup at h
  cases hsf : splitFence s with
  | none => rw [hsf] at h; exact absurd h (by simp)
  | some pr =>
    obtain ⟨b, afterOpen⟩ := pr
    rw [hsf] at h
    simp only at h
    have hs1 : s = b ++ fenceStr.data ++ afterOpen := splitFence_eq hsf
    by_cases hj : hasPrefixL jsonTagStr.data afterOpen = true
    · rw [if_pos hj] at h
      cases hsf2 : splitFence ((afterOpen.drop 4).dropWhile isJsWhitespace) with
      | none => rw [hsf2] at h; exact absurd h (by simp)
      | some pr2 =>
        obtain ⟨g', rest⟩ := pr2
        rw [hsf2] at h
        injection h with hg
        obtain ⟨tw, htw1, htw2⟩ := dropWhile_decomp isJsWhitespace (afterOpen.drop 4)
        have h2 : afterOpen = jsonTagStr.data ++ afterOpen.drop 4 := by
          simpa using hasPrefixL_eq_append hj
        have h4 : (afterOpen.drop 4).dropWhile isJsWhitespace =
            g ++ fenceStr.data ++ rest := by
          rw [← hg]; exact splitFence_eq hsf2
        refine ⟨b, jsonTagStr.data, tw, rest, ?_, Or.inr rfl, htw2⟩
        rw [hs1, h2, htw1, h4]
        simp [List.append_assoc]
    · rw [if_neg hj] at h
      cases hsf2 : splitFence (afterOpen.dropWhile isJsWhitespace) with
      | none => rw [hsf2] at h; exact absurd h (by simp)
      | some pr2 =>
        obtain ⟨g', rest⟩ := pr2
        rw [hsf2] at h
        injection h with hg
        obtain ⟨tw, htw1, htw2⟩ := dropWhile_decomp isJsWhitespace afterOpen
        have h4 : afterOpen.dropWhile isJsWhitespace = g ++ fenceStr.data ++ rest := by
          rw [← hg]; exact splitFence_eq hsf2
        refine ⟨b, [], tw, rest, ?_, Or.inl rfl, htw2⟩
        rw [hs1, htw1, h4]
        simp [List.append_assoc]

theorem fenceGroup_some_contains {s g : List Char} (h : fenceGroup s = some g) :
    containsSubL fenceStr.data s = true := by
  unfold fenceGroup at h
  cases hsf : splitFence s with
  | none => rw [hsf] at h; exact absurd h (by simp)
  | some pr =>
    obtain ⟨b, afterOpen⟩ := pr
    exact splitFence_contains hsf

/-- C7 counterexample: the output consisting of six backticks contains
"```" and the fence regex matches it with an empty first capture group,
whose trimmed content is the empty string; yet the code hands the raw
six-backtick output to `JSON.parse`, because the truthiness test
`codeBlockMatch[1]` rejects the empty group. -/
theorem cleanedOutput_c7_cex :
    sIncludes "``````" fenceStr = true ∧
    fenceGroup ("``````" : String).data = some [] ∧
    claimedCleanedOutput "``````" = "" ∧
    cleanedOutput "``````" = "``````" ∧
    ("``````" : String) ≠ ("" : String) :=
  ⟨rfl, rfl, rfl, rfl, by decide⟩

/-- C7 amended: in the parsing step of `handleQuery`, the text handed to
the JSON parser is the trimmed content of the first fenced code block
(optionally tagged `json`) matched by the regex whenever the output
contains "```" and the matched group is non-empty; for every output
without such a fence, or where the pattern fails to match, or where the
matched group is empty, the entire raw output string is parsed
unchanged. -/
theorem cleanedOutput_spec (s : String) :
    (sIncludes s fenceStr = false → cleanedOutput s = s) ∧
    (fenceGroup s.data = none → cleanedOutput s = s) ∧
    (fenceGroup s.data = some [] → cleanedOutput s = s) ∧
    (∀ g, fenceGroup s.data = some g → g ≠ [] →
      cleanedOutput s = jsTrim (String.mk g) ∧
      sIncludes s fenceStr = true ∧
      ∃ pre tag ws rest,
        s.data = pre ++ fenceStr.data ++ tag ++ ws ++ g ++ fenceStr.data ++ rest ∧
        (tag = [] ∨ tag = jsonTagStr.data) ∧ ws = ws.takeWhile isJsWhitespace) := by
  refine ⟨?_, ?_, ?_, ?_⟩
  · intro h; simp [cleanedOutput, h]
  · intro h
    unfold cleanedOutput
    rw [h]
    simp
  · intro h
    unfold cleanedOutput
    rw [h]
    simp
  · intro g hg hne
    have hc : sIncludes s fenceStr = true := fenceGroup_some_contains hg
    refine ⟨?_, hc, fenceGroup_decomp hg⟩
    unfold cleanedOutput
    rw [hc, hg]
    simp [List.isEmpty_iff, hne]

/-- Witness for C7 amended at a concrete fenced output. -/
theorem cleanedOutput_spec_witness :
    cleanedOutput "```json\n OUT \n```tail" = "OUT" ∧
    fenceGroup ("```json\n OUT \n```tail" : String).data = some ("OUT \n" : String).data :=
  ⟨((cleanedOutput_spec "```json\n OUT \n```tail").2.2.2 ("OUT \n" : String).data
      rfl (by decide)).1, rfl⟩

theorem summarizeAndStoreMemory_eq_core (env : Env) (u t : String) (conv : Option ConvData)
    (hstore : env.storeInit = true) (hconv : env.getConvFresh = Except.ok conv) :
    summarizeAndStoreMemory env u t = summarizeCore env u t (entriesOf conv) := by
  simp [summarizeAndStoreMemory, hstore, hconv]

theorem summarizeConversation_run (env : Env) (u h t : String)
    (hrag : env.ragInit = true) :
    summarizeConversation env u h t =
      ((match env.summarizeOutcome with
        | Except.error _ => Except.ok (Json.str "Error performing summarization.")
        | Except.ok r => Except.ok (jsOrChain r)),
       [Effect.llmQuery (jsReplaceFirst (jsReplaceFirst t "\x7b\x7buserId\x7d\x7d" u)
          "\x7b\x7bconversationHistoryText\x7d\x7d" h)]) := by
  unfold summarizeConversation
  rw [hrag]
  cases env.summarizeOutcome <;> simp

/-- C3 counterexample: with ten fresh conversation entries the
summarization triggers, the extracted summary is the empty string, which
starts with neither "Error" nor "Could not summarize"; yet the function
stores nothing and returns false, because of the truthiness guard
`summary && ...`. -/
theorem summarizeAndStoreMemory_c3_cex :
    summarizeAndStoreMemory envC3 "u1" "T" = (false, [Effect.llmQuery "T"]) ∧
    summarizeConversation envC3 "u1" (jsJoin "\n" (tenEntries.map renderTurn)) "T" =
      (Except.ok (Json.str ""), [Effect.llmQuery "T"]) ∧
    envC3.getConvFresh = Except.ok (some ⟨"u1", some tenEntries⟩) ∧
    tenEntries.length = 10 ∧
    jsStartsWith "" "Error" = false ∧
    jsStartsWith "" "Could not summarize" = false :=
  ⟨rfl, rfl, rfl, rfl, by decide, by decide⟩

theorem summarizeCore_run (env : Env) (userId tmpl : String) (entries : List ConvEntry)
    (hrag : env.ragInit = true)
    (hb : (decide (0 < entries.length) && (entries.length % 10 == 0)) = true) :
    summarizeCore env userId tmpl entries =
      (match
          (match env.summarizeOutcome with
           | Except.error _ => Json.str "Error performing summarization."
           | Except.ok r => jsOrChain r) with
       | Json.str s =>
         if jsTruthy (Json.str s) = true then
           if !(jsStartsWith s "Error") && !(jsStartsWith s "Could not summarize") then
             if env.hasCustomSetFn then
               match env.memorySetOutcome with
               | Except.error _ =>
                 (false, [Effect.llmQuery (jsReplaceFirst
                     (jsReplaceFirst tmpl "\x7b\x7buserId\x7d\x7d" userId)
                     "\x7b\x7bconversationHistoryText\x7d\x7d"
                     (jsJoin "\n" (entries.map renderTurn))),
                   Effect.customSet userId ("memory:" ++ userId ++ ":last_summary")
                     (StoredDoc.memoryDoc s env.now)])
               | Except.ok _ =>
                 (true, [Effect.llmQuery (jsReplaceFirst
                     (jsReplaceFirst tmpl "\x7b\x7buserId\x7d\x7d" userId)
                     "\x7b\x7bconversationHistoryText\x7d\x7d"
                     (jsJoin "\n" (entries.map renderTurn))),
                   Effect.customSet userId ("memory:" ++ userId ++ ":last_summary")
                     (StoredDoc.memoryDoc s env.now)])
             else (false, [Effect.llmQuery (jsReplaceFirst
                 (jsReplaceFirst tmpl "\x7b\x7buserId\x7d\x7d" userId)
                 "\x7b\x7bconversationHistoryText\x7d\x7d"
                 (jsJoin "\n" (entries.map renderTurn)))])
           else (false, [Effect.llmQuery (jsReplaceFirst
               (jsReplaceFirst tmpl "\x7b\x7buserId\x7d\x7d" userId)
               "\x7b\x7bconversationHistoryText\x7d\x7d"
               (jsJoin "\n" (entries.map renderTurn)))])
         else (false, [Effect.llmQuery (jsReplaceFirst
             (jsReplaceFirst tmpl "\x7b\x7buserId\x7d\x7d" userId)
             "\x7b\x7bconversationHistoryText\x7d\x7d"
             (jsJoin "\n" (entries.map renderTurn)))])
       | v =>
         if jsTruthy v = true then
           (false, [Effect.llmQuery (jsReplaceFirst
               (jsReplaceFirst tmpl "\x7b\x7buserId\x7d\x7d" userId)
               "\x7b\x7bconversationHistoryText\x7d\x7d"
               (jsJoin "\n" (entries.map renderTurn)))])
         else (false, [Effect.llmQuery (jsReplaceFirst
             (jsReplaceFirst tmpl "\x7b\x7buserId\x7d\x7d" userId)
             "\x7b\x7bconversationHistoryText\x7d\x7d"
             (jsJoin "\n" (entries.map renderTurn)))])) := by
  unfold summarizeCore
  rw [hb]
  simp only [if_true]
  rw [summarizeConversation_run env userId (jsJoin "\n" (entries.map renderTurn)) tmpl hrag]
  cases ho : env.summarizeOutcome with
  | error e =>
    simp only
    generalize (Json.str "Error performing summarization.") = v
    cases v <;> simp [jsTruthy]
  | ok r =>
    simp only
    generalize jsOrChain r = v
    cases v <;> simp [jsTruthy]

/-- C3 amended: `summarizeAndStoreMemory` triggers a summarization (an
LLM call on the filled template) exactly when the freshly fetched
entry count of the freshly fetched conversation is positive and divisible by 10; when
triggered and the returned summary is a NON-EMPTY string starting with
neither "Error" nor "Could not summarize", and the store write is
available and succeeds, it stores the summary under
`memory:<userId>:last_summary` and returns true; when the summary is
empty, or carries an error prefix, or the LLM call rejected, it stores
nothing and returns false. -/
theorem summarizeAndStoreMemory_amended (env : Env) (userId tmpl : String)
    (conv : Option ConvData)
    (hstore : env.storeInit = true)
    (hrag : env.ragInit = true)
    (hconv : env.getConvFresh = Except.ok conv) :
    let entries := entriesOf conv
    let filled := jsReplaceFirst (jsReplaceFirst tmpl "\x7b\x7buserId\x7d\x7d" userId)
      "\x7b\x7bconversationHistoryText\x7d\x7d" (jsJoin "\n" (entries.map renderTurn))
    (¬(0 < entries.length ∧ entries.length % 10 = 0) →
        summarizeAndStoreMemory env userId tmpl = (false, [])) ∧
    ((0 < entries.length ∧ entries.length % 10 = 0) →
      (∃ tail, (summarizeAndStoreMemory env userId tmpl).2 = Effect.llmQuery filled :: tail) ∧
      (env.summarizeOutcome = Except.error () →
        summarizeAndStoreMemory env userId tmpl = (false, [Effect.llmQuery filled])) ∧
      (∀ r s, env.summarizeOutcome = Except.ok r → jsOrChain r = Json.str s →
        ((s ≠ "" → jsStartsWith s "Error" = false → jsStartsWith s "Could not summarize" = false →
            env.hasCustomSetFn = true → env.memorySetOutcome = Except.ok () →
            summarizeAndStoreMemory env userId tmpl =
              (true, [Effect.llmQuery filled,
                      Effect.customSet userId ("memory:" ++ userId ++ ":last_summary")
                        (StoredDoc.memoryDoc s env.now)])) ∧
         ((s = "" ∨ jsStartsWith s "Error" = true ∨ jsStartsWith s "Could not summarize" = true) →
            summarizeAndStoreMemory env userId tmpl =
              (false, [Effect.llmQuery filled]))))) := by
  intro entries filled
  have hcore : summarizeAndStoreMemory env userId tmpl = summarizeCore env userId tmpl entries :=
    summarizeAndStoreMemory_eq_core env userId tmpl conv hstore hconv
  constructor
  · intro hncond
    have hb : (decide (0 < entries.length) && (entries.length % 10 == 0)) = false := by
      cases hA : decide (0 < entries.length) with
      | false => rfl
      | true =>
        have hA' : 0 < entries.length := of_decide_eq_true hA
        have hB : ¬(entries.length % 10 = 0) := fun hb => hncond ⟨hA', hb⟩
        simp [beq_iff_eq, hB]
    rw [hcore]
    unfold summarizeCore
    rw [hb]
    rfl
  · intro hcond
    have hb : (decide (0 < entries.length) && (entries.length % 10 == 0)) = true := by
      simp [hcond.1, hcond.2]
    rw [hcore, summarizeCore_run env userId tmpl entries hrag hb]
    refine ⟨?_, ?_, ?_⟩
    · cases ho : env.summarizeOutcome <;> simp only <;> (repeat' split) <;> exact ⟨_, rfl⟩
    · intro ho
      rw [ho]
      have hE : jsStartsWith "Error performing summarization." "Error" = true := by decide
      simp [jsTruthy, hE]
    · intro r s ho hs
      rw [ho]
      simp only [hs]
      constructor
      · intro hne hpE hpC hcs hmo
        have hse : (s == "") = false := by simp [hne]
        simp [jsTruthy, hse, hpE, hpC, hcs, hmo]
      · intro hbad
        rcases hbad with hbad | hbad | hbad
        · subst hbad
          simp [jsTruthy]
        · simp [jsTruthy, hbad]
        · simp [jsTruthy, hbad]

/-- Witness for C3 amended: a ten-entry conversation with a good summary
stores it and returns true. -/
theorem summarizeAndStoreMemory_amended_witness :
    summarizeAndStoreMemory envC10 "u1" "T" =
      (true, [Effect.llmQuery "T",
              Effect.customSet "u1" ("memory:" ++ "u1" ++ ":last_summary")
                (StoredDoc.memoryDoc "Summary fine" 7)]) :=
  ((((summarizeAndStoreMemory_amended envC10 "u1" "T" (some ⟨"u1", some tenEntries⟩)
      rfl rfl rfl).2 ⟨by decide, by decide⟩).2.2
      (Json.obj [("answer", Json.str "Summary fine")]) "Summary fine" rfl rfl).1
    (by decide) rfl rfl rfl rfl)

theorem jsJoin_cons_exists (sep x : String) (xs : List String) :
    ∃ t, jsJoin sep (x :: xs) = x ++ t := by
  cases xs with
  | nil => exact ⟨"", by simp [jsJoin]⟩
  | cons y ys => exact ⟨sep ++ jsJoin sep (y :: ys), by simp [jsJoin, String.append_assoc]⟩

theorem renderTurn_length_pos (e : ConvEntry) : 0 < (renderTurn e).length := by
  unfold renderTurn
  rw [String.length_append, String.length_append]
  have h2 : (": " : String).length = 2 := rfl
  omega

theorem jsJoin_renderTurn_ne_empty {entries : List ConvEntry} (h : entries ≠ []) :
    jsJoin "\n" (entries.map renderTurn) ≠ "" := by
  cases entries with
  | nil => exact absurd rfl h
  | cons e rest =>
    obtain ⟨t, ht⟩ := jsJoin_cons_exists "\n" (renderTurn e) (rest.map renderTurn)
    simp only [List.map_cons, ht]
    intro hc
    have hlen := congrArg String.length hc
    rw [String.length_append] at hlen
    have hp := renderTurn_length_pos e
    have h0 : ("" : String).length = 0 := rfl
    omega

theorem historySection_empty : historySection [] = "" := rfl

theorem historySection_cons {entries : List ConvEntry} (h : entries ≠ []) :
    historySection entries =
      "Current conversation history:\n" ++
      jsJoin "\n" ((entries.drop (entries.length - 10)).map renderTurn) ++ "\n\n" := by
  have hlim : entries.drop (entries.length - 10) ≠ [] := by
    have hlen : (entries.drop (entries.length - 10)).length =
        entries.length - (entries.length - 10) := List.length_drop _ _
    have hpos : 0 < entries.length := List.length_pos.mpr h
    intro hc
    rw [hc] at hlen
    simp at hlen
    omega
  have hne := jsJoin_renderTurn_ne_empty hlim
  have hb : (jsJoin "\n" ((entries.drop (entries.length - 10)).map renderTurn) == "") = false :=
    beq_eq_false_iff_ne.mpr hne
  simp only [historySection]
  rw [hb]
  rfl

/-- C2. The `Current conversation history:` section of the prompt built
by `handleQuery` holds exactly the last `min(10, length)` entries of the
retrieved conversation, in their original order, rendered as
`role: content` lines joined by newlines; when the history is empty the
section is omitted from the prompt entirely. -/
theorem conversationHistoryWindow (pc : PromptConfig) (userId userName : String)
    (children : List Child) (memText : String) (entries : List ConvEntry)
    (userQuery : String) :
    let limited := entries.drop (entries.length - 10)
    List.IsSuffix limited entries ∧
    limited.length = min 10 entries.length ∧
    (entries = [] →
      buildPrompt pc userId userName children memText entries userQuery =
        promptBase pc ++ profileSection userName children ++ memorySection userId memText ++
        promptTail pc userQuery) ∧
    (entries ≠ [] →
      buildPrompt pc userId userName children memText entries userQuery =
        promptBase pc ++ profileSection userName children ++ memorySection userId memText ++
        ("Current conversation history:\n" ++
          jsJoin "\n" (limited.map (fun e => e.role ++ ": " ++ e.content)) ++ "\n\n") ++
        promptTail pc userQuery) := by
  intro limited
  refine ⟨List.drop_suffix _ _, ?_, ?_, ?_⟩
  · have := List.length_drop (entries.length - 10) entries
    simp only [limited, this]
    omega
  · intro h
    subst h
    simp [buildPrompt, historySection_empty]
  · intro h
    unfold buildPrompt
    rw [historySection_cons h]
    rfl

/-- Witness for C2 at twelve concrete entries: the rendered window is the
last ten entries. -/
theorem conversationHistoryWindow_witness :
    buildPrompt pcW "u1" "" [] "" entries12 "q" =
      promptBase pcW ++ profileSection "" [] ++ memorySection "u1" "" ++
      ("Current conversation history:\n" ++
        jsJoin "\n" ((entries12.drop (entries12.length - 10)).map
          (fun e => e.role ++ ": " ++ e.content)) ++ "\n\n") ++
      promptTail pcW "q" ∧
    (entries12.drop (entries12.length - 10)).length = min 10 entries12.length :=
  ⟨(conversationHistoryWindow pcW "u1" "" [] "" entries12 "q").2.2.2 (by decide),
   (conversationHistoryWindow pcW "u1" "" [] "" entries12 "q").2.1⟩

theorem summarizeConversation_effects (env : Env) (u h t : String) (e : Effect)
    (he : e ∈ (summarizeConversation env u h t).2) : ∃ p, e = Effect.llmQuery p := by
  unfold summarizeConversation at he
  split at he
  · simp at he
  · split at he <;> (simp at he; exact ⟨_, he⟩)

theorem summarizeCoreEffects_shape (env : Env) (u t : String) (entries : List ConvEntry)
    (e : Effect) (he : e ∈ (summarizeCore env u t entries).2) :
    (∃ p, e = Effect.llmQuery p) ∨
    ∃ s ts, e = Effect.customSet u ("memory:" ++ u ++ ":last_summary")
        (StoredDoc.memoryDoc s ts) ∧
      jsStartsWith s "Error" = false ∧ jsStartsWith s "Could not summarize" = false := by
  unfold summarizeCore at he
  split at he
  case isTrue hb =>
    dsimp only at he
    rcases hsc : summarizeConversation env u (jsJoin "\n" (entries.map renderTurn)) t
      with ⟨sv, sEffs⟩
    rw [hsc] at he
    have hEffs : ∀ e', e' ∈ sEffs → ∃ p, e' = Effect.llmQuery p := by
      intro e' he'
      exact summarizeConversation_effects env u _ t e' (by rw [hsc]; exact he')
    cases sv with
    | error err => exact Or.inl (hEffs e he)
    | ok summary =>
      dsimp only at he
      by_cases htr : jsTruthy summary = true
      · rw [if_pos htr] at he
        cases summary with
        | str s =>
          dsimp only at he
          by_cases hguard :
              (!jsStartsWith s "Error" && !jsStartsWith s "Could not summarize") = true
          · rw [if_pos hguard] at he
            simp only [Bool.and_eq_true, Bool.not_eq_true'] at hguard
            by_cases hset : env.hasCustomSetFn = true
            · rw [if_pos hset] at he
              cases hmo : env.memorySetOutcome <;> rw [hmo] at he <;> dsimp only at he <;>
              · rcases List.mem_append.mp he with hm | hm
                · exact Or.inl (hEffs e hm)
                · exact Or.inr ⟨s, env.now, by simpa using hm, hguard.1, hguard.2⟩
            · rw [if_neg hset] at he
              exact Or.inl (hEffs e he)
          · rw [if_neg hguard] at he
            exact Or.inl (hEffs e he)
        | null => exact Or.inl (hEffs e he)
        | bool b => exact Or.inl (hEffs e he)
        | num tb => exact Or.inl (hEffs e he)
        | arr l => exact Or.inl (hEffs e he)
        | obj fs => exact Or.inl (hEffs e he)
      · rw [if_neg htr] at he
        exact Or.inl (hEffs e he)
  case isFalse hb => simp at he

theorem summarizeEffects_shape (env : Env) (u t : String) (e : Effect)
    (he : e ∈ (summarizeAndStoreMemory env u t).2) :
    (∃ p, e = Effect.llmQuery p) ∨
    ∃ s ts, e = Effect.customSet u ("memory:" ++ u ++ ":last_summary")
        (StoredDoc.memoryDoc s ts) ∧
      jsStartsWith s "Error" = false ∧ jsStartsWith s "Could not summarize" = false := by
  unfold summarizeAndStoreMemory at he
  split at he
  · simp at he
  · split at he
    · simp at he
    · exact summarizeCoreEffects_shape env u t _ e he

/-- C10. The long-term memory record stored under
`memory:<userId>:last_summary` never holds an error placeholder: every
summary text the summarization path writes starts with neither "Error"
nor "Could not summarize" — even though `summarizeConversation` returns
the string "Error performing summarization." when the LLM call rejects. -/
theorem memorySummary_no_error_placeholder :
    (∀ (env : Env) (u t : String) (uid key s : String) (ts : Nat),
      Effect.customSet uid key (StoredDoc.memoryDoc s ts) ∈
          (summarizeAndStoreMemory env u t).2 →
      jsStartsWith s "Error" = false ∧ jsStartsWith s "Could not summarize" = false) ∧
    (∀ (env : Env) (u h t : String), env.ragInit = true →
      env.summarizeOutcome = Except.error () →
      (summarizeConversation env u h t).1 =
        Except.ok (Json.str "Error performing summarization.") ∧
      jsStartsWith "Error performing summarization." "Error" = true) := by
  constructor
  · intro env u t uid key s ts he
    rcases summarizeEffects_shape env u t _ he with ⟨p, hp⟩ | ⟨s', ts', heq, h1, h2⟩
    · exact absurd hp (by simp)
    · cases heq
      exact ⟨h1, h2⟩
  · intro env u h t hrag ho
    rw [summarizeConversation_run env u h t hrag, ho]
    exact ⟨rfl, rfl⟩

/-- Witness for C10: the summary "Summary fine" stored by a concrete run
carries no error prefix. -/
theorem memorySummary_no_error_placeholder_witness :
    jsStartsWith "Summary fine" "Error" = false ∧
    jsStartsWith "Summary fine" "Could not summarize" = false :=
  memorySummary_no_error_placeholder.1 envC10 "u1" "T" "u1"
    ("memory:" ++ "u1" ++ ":last_summary") "Summary fine" 7
    (by
      have h : (summarizeAndStoreMemory envC10 "u1" "T").2 =
          [Effect.llmQuery "T",
           Effect.customSet "u1" ("memory:" ++ "u1" ++ ":last_summary")
             (StoredDoc.memoryDoc "Summary fine" 7)] := rfl
      rw [h]
      exact List.mem_cons_of_mem _ (List.mem_cons_self _ _))

theorem jsOrPick_truthy_or (r : Json) (k : String) (next : Json)
    (h : jsTruthy next = true ∨ next = Json.str "") :
    jsTruthy (jsOrPick r k next) = true ∨ jsOrPick r k next = Json.str "" := by
  unfold jsOrPick
  cases hf : getField r k with
  | none => exact h
  | some v =>
    dsimp only
    by_cases ht : jsTruthy v = true
    · rw [if_pos ht]; exact Or.inl ht
    · rw [if_neg ht]; exact h

theorem jsOrChain_truthy_or_empty (r : Json) :
    jsTruthy (jsOrChain r) = true ∨ jsOrChain r = Json.str "" := by
  unfold jsOrChain
  exact jsOrPick_truthy_or r _ _ (jsOrPick_truthy_or r _ _ (jsOrPick_truthy_or r _ _
    (jsOrPick_truthy_or r _ _ (Or.inr rfl))))

theorem handleQuery_cacheMiss (env : Env) (ep q uid uname : String) (ch : List Child)
    (pc : PromptConfig) (t : String)
    (hq : q ≠ "")
    (hpc : env.promptConfig = some pc)
    (hr : env.ragInit = true)
    (hmiss : getCachedResult env uid q (some (userMetadataJson uname ch)) = none)
    (hmem : getConversationMemory env uid = Json.str t) :
    handleQuery env ep q uid uname ch = handleQueryMain env pc q uid uname ch t := by
  unfold handleQuery
  have hqb : (q == "") = false := beq_eq_false_iff_ne.mpr hq
  rw [hqb, hpc, hmiss, hmem]
  simp [hr]

theorem handleQueryMain_resp (env : Env) (pc : PromptConfig) (q uid uname : String)
    (ch : List Child) (t : String) (result : Json)
    (hrag : env.ragOutcome = Except.ok result) :
    (handleQueryMain env pc q uid uname ch t).1 =
      HttpResp.ok (processLlmOutput env (jsOrChain result)) := by
  unfold handleQueryMain
  rcases hgc : getConversationHistory env uid with ⟨convData, hEffs⟩
  rw [hrag]
  dsimp only
  split <;> rfl

theorem handleQueryMain_effects (env : Env) (pc : PromptConfig) (q uid uname : String)
    (ch : List Child) (t : String) (result : Json)
    (hrag : env.ragOutcome = Except.ok result) :
    (handleQueryMain env pc q uid uname ch t).2 =
      (getConversationHistory env uid).2 ++
      [Effect.llmQuery
        (buildPrompt pc uid uname ch t (entriesOf (getConversationHistory env uid).1) q)] ++
      (if isValidResponse (processLlmOutput env (jsOrChain result)) then
        (addConversationEntries env uid q
          (answerStringOf (processLlmOutput env (jsOrChain result)))).2 ++
        (setCachedResult env uid q (some (userMetadataJson uname ch))
          (processLlmOutput env (jsOrChain result))).2 ++
        (summarizeAndStoreMemory env uid pc.summarizationInstruction).2
      else []) := by
  unfold handleQueryMain
  rcases hgc : getConversationHistory env uid with ⟨convData, hEffs⟩
  rw [hrag]
  dsimp only
  split <;> simp [List.append_assoc]

theorem processLlmOutput_fallback (env : Env) (llmOut : Json)
    (h : llmOut = Json.str "" ∨ isStrJ llmOut = false ∨
      (∃ s, llmOut = Json.str s ∧ env.jsonParse (cleanedOutput s) = Except.error ()) ∨
      (∃ s j, llmOut = Json.str s ∧ env.jsonParse (cleanedOutput s) = Except.ok j ∧
        ¬∃ a l, getField j "answer" = some (Json.str a) ∧
          getField j "relatedProducts" = some (Json.arr l))) :
    processLlmOutput env llmOut = fallbackResponse env llmOut := by
  rcases h with h | h | ⟨s, rfl, hp⟩ | ⟨s, j, rfl, hp, hshape⟩
  · subst h; rfl
  · cases llmOut <;> simp [isStrJ] at h ⊢ <;> rfl
  · unfold processLlmOutput
    dsimp only
    by_cases ht : (jsTrim s == "") = true
    · rw [if_pos ht]
    · rw [if_neg ht, hp]
  · unfold processLlmOutput
    dsimp only
    by_cases ht : (jsTrim s == "") = true
    · rw [if_pos ht]
    · rw [if_neg ht, hp]
      dsimp only
      rcases ha : getField j "answer" with _ | va
      · rfl
      · rcases hl : getField j "relatedProducts" with _ | vl
        · cases va <;> rfl
        · cases va with
          | str a =>
            cases vl with
            | arr l => exact absurd ⟨a, l, ha, hl⟩ hshape
            | null => rfl
            | bool b => rfl
            | num tb => rfl
            | str s2 => rfl
            | obj fs => rfl
          | null => rfl
          | bool b => rfl
          | num tb => rfl
          | arr l2 => rfl
          | obj fs => rfl

theorem hasPrefixL_marker : hasPrefixL fallbackMarker.data fallbackAnswerStart.data = true := by
  decide

theorem sIncludes_marker_of_prefixed (x : String) :
    sIncludes (fallbackAnswerStart ++ x) fallbackMarker = true := by
  unfold sIncludes
  rw [String.data_append]
  exact containsSubL_of_hasPrefixL (hasPrefixL_append_right _ hasPrefixL_marker)

theorem fallback_not_valid (env : Env) (llmOut : Json) :
    isValidResponse (fallbackResponse env llmOut) = false := by
  unfold isValidResponse fallbackResponse
  simp [jsTruthy, getField, lookupField, sIncludes_marker_of_prefixed]

/-- C1. For every LLM output received by `handleQuery` on the main path,
if the output is the empty string, or not a string, or fails JSON parsing
after the optional code-fence extraction, or parses to a value without a
string `answer` field and an array `relatedProducts` field, then the
response body is the fallback object whose `relatedProducts` is the empty
array and whose `answer` is the fixed trouble prefix followed by the raw
LLM output (or "Not available" when that output is empty). -/
theorem llmOutput_fallback (env : Env) (ep q uid uname : String) (ch : List Child)
    (pc : PromptConfig) (t : String) (result : Json)
    (hq : q ≠ "")
    (hpc : env.promptConfig = some pc)
    (hr : env.ragInit = true)
    (hmiss : getCachedResult env uid q (some (userMetadataJson uname ch)) = none)
    (hmem : getConversationMemory env uid = Json.str t)
    (hrag : env.ragOutcome = Except.ok result)
    (hcase : jsOrChain result = Json.str "" ∨ isStrJ (jsOrChain result) = false ∨
      (∃ s, jsOrChain result = Json.str s ∧
        env.jsonParse (cleanedOutput s) = Except.error ()) ∨
      (∃ s j, jsOrChain result = Json.str s ∧
        env.jsonParse (cleanedOutput s) = Except.ok j ∧
        ¬∃ a l, getField j "answer" = some (Json.str a) ∧
          getField j "relatedProducts" = some (Json.arr l))) :
    (jsOrChain result = Json.str "" →
      (handleQuery env ep q uid uname ch).1 =
        HttpResp.ok (Json.obj
          [("answer", Json.str (fallbackAnswerStart ++ "Not available")),
           ("relatedProducts", Json.arr [])])) ∧
    (jsOrChain result ≠ Json.str "" →
      (handleQuery env ep q uid uname ch).1 =
        HttpResp.ok (Json.obj
          [("answer", Json.str (fallbackAnswerStart ++ jsStringOf env (jsOrChain result))),
           ("relatedProducts", Json.arr [])])) := by
  have hresp : (handleQuery env ep q uid uname ch).1 =
      HttpResp.ok (fallbackResponse env (jsOrChain result)) := by
    rw [handleQuery_cacheMiss env ep q uid uname ch pc t hq hpc hr hmiss hmem]
    rw [handleQueryMain_resp env pc q uid uname ch t result hrag]
    rw [processLlmOutput_fallback env (jsOrChain result) hcase]
  constructor
  · intro hem
    rw [hresp]
    unfold fallbackResponse
    rw [hem]
    simp [jsTruthy]
  · intro hne
    have htr : jsTruthy (jsOrChain result) = true := by
      rcases jsOrChain_truthy_or_empty result with htr | hem
      · exact htr
      · exact absurd hem hne
    rw [hresp]
    unfold fallbackResponse
    rw [if_pos htr]

/-- Witness for C1: with `JSON.parse` rejecting, the concrete response is
the fallback body carrying the raw output "hello". -/
theorem llmOutput_fallback_witness :
    (handleQuery envBase "/ask" "hi" "u1" "" []).1 =
      HttpResp.ok (Json.obj
        [("answer", Json.str (fallbackAnswerStart ++ "hello")),
         ("relatedProducts", Json.arr [])]) :=
  (llmOutput_fallback envBase "/ask" "hi" "u1" "" [] pcW ""
    (Json.obj [("answer", Json.str "hello")])
    (by decide) rfl rfl rfl rfl rfl
    (Or.inr (Or.inr (Or.inl ⟨"hello", rfl, rfl⟩)))).2
    (by
      intro h
      rw [show jsOrChain (Json.obj [("answer", Json.str "hello")]) = Json.str "hello"
        from rfl] at h
      injection h with h2
      exact absurd h2 (by decide))

/-- C5. When the cache lookup returns a stored document with a truthy
`data` field, `handleQuery` responds with exactly that stored data, and
performs no LLM query, no conversation-entry append, no summarization and
no cache write: the effect list of the request is empty. -/
theorem cacheHit_frame (env : Env) (ep q uid uname : String) (ch : List Child)
    (pc : PromptConfig) (doc d : Json)
    (hq : q ≠ "")
    (hpc : env.promptConfig = some pc)
    (hr : env.ragInit = true)
    (hs : env.storeInit = true)
    (hdoc : env.cacheGetResult = Except.ok doc)
    (hd : getField doc "data" = some d)
    (ht : jsTruthy d = true) :
    handleQuery env ep q uid uname ch = (HttpResp.ok d, []) := by
  have hhit : getCachedResult env uid q (some (userMetadataJson uname ch)) = some d := by
    simp [getCachedResult, hs, hdoc, getField_some_jsTruthy hd, hd, ht]
  unfold handleQuery
  have hqb : (q == "") = false := beq_eq_false_iff_ne.mpr hq
  rw [hqb, hpc, hhit]
  simp [hr]

/-- Witness for C5 at a concrete stored document. -/
theorem cacheHit_frame_witness :
    handleQuery envHit "/ask" "hi" "u1" "" [] =
      (HttpResp.ok (Json.obj [("answer", Json.str "cached")]), []) :=
  cacheHit_frame envHit "/ask" "hi" "u1" "" [] pcW
    (Json.obj [("data", Json.obj [("answer", Json.str "cached")])])
    (Json.obj [("answer", Json.str "cached")])
    (by decide) rfl rfl rfl rfl rfl rfl

theorem processLlmOutput_success (env : Env) (s : String) (j : Json) (a : String)
    (l : List Json)
    (ht : (jsTrim s == "") = false)
    (hp : env.jsonParse (cleanedOutput s) = Except.ok j)
    (ha : getField j "answer" = some (Json.str a))
    (hl : getField j "relatedProducts" = some (Json.arr l)) :
    processLlmOutput env (Json.str s) =
      setField
        (setField j "relatedProducts" (Json.arr ((l.map (coerceSku env)).map Json.str)))
        "relatedProducts"
        (Json.arr (getProductsBySKUs env
          (Json.arr ((l.map (coerceSku env)).map Json.str)))) := by
  unfold processLlmOutput
  dsimp only
  rw [if_neg (by simp [ht]), hp]
  dsimp only
  rw [ha, hl]

/-- C6. When the LLM output parses to the expected shape, every element
of `relatedProducts` is coerced to a string and the `relatedProducts`
field of the response is exactly the catalog rows `getProductsBySKUs`
returns for those SKU strings; and `getProductsBySKUs` returns the empty
list whenever the database is uninitialized, its argument is not an
array or is the empty array, or the query rejects. -/
theorem relatedProducts_enrichment (env : Env) (ep q uid uname : String)
    (ch : List Child) (pc : PromptConfig) (t : String) (result : Json)
    (s : String) (j : Json) (a : String) (l : List Json)
    (hq : q ≠ "")
    (hpc : env.promptConfig = some pc)
    (hr : env.ragInit = true)
    (hmiss : getCachedResult env uid q (some (userMetadataJson uname ch)) = none)
    (hmem : getConversationMemory env uid = Json.str t)
    (hrag : env.ragOutcome = Except.ok result)
    (hstr : jsOrChain result = Json.str s)
    (ht : (jsTrim s == "") = false)
    (hp : env.jsonParse (cleanedOutput s) = Except.ok j)
    (ha : getField j "answer" = some (Json.str a))
    (hl : getField j "relatedProducts" = some (Json.arr l)) :
    (∃ body, (handleQuery env ep q uid uname ch).1 = HttpResp.ok body ∧
      getField body "relatedProducts" =
        some (Json.arr (getProductsBySKUs env
          (Json.arr ((l.map (coerceSku env)).map Json.str))))) ∧
    (∀ (env' : Env) (v : Json),
      (env'.dbInit = false → getProductsBySKUs env' v = []) ∧
      ((∀ xs, v ≠ Json.arr xs) → getProductsBySKUs env' v = []) ∧
      (v = Json.arr [] → getProductsBySKUs env' v = []) ∧
      (∀ xs, v = Json.arr xs → env'.dbQuery (Json.arr xs) = Except.error () →
        getProductsBySKUs env' v = [])) := by
  constructor
  · obtain ⟨fs, hfs⟩ := getField_some_obj ha
    refine ⟨setField
        (setField j "relatedProducts" (Json.arr ((l.map (coerceSku env)).map Json.str)))
        "relatedProducts"
        (Json.arr (getProductsBySKUs env
          (Json.arr ((l.map (coerceSku env)).map Json.str)))), ?_, ?_⟩
    · rw [handleQuery_cacheMiss env ep q uid uname ch pc t hq hpc hr hmiss hmem]
      rw [handleQueryMain_resp env pc q uid uname ch t result hrag]
      rw [hstr]
      rw [processLlmOutput_success env s j a l ht hp ha hl]
    · subst hfs
      exact getField_setField "relatedProducts" _
  · intro env' v
    refine ⟨?_, ?_, ?_, ?_⟩
    · intro h
      simp [getProductsBySKUs, h]
    · intro h
      cases v with
      | arr xs => exact absurd rfl (h xs)
      | null => simp [getProductsBySKUs]
      | bool b => simp [getProductsBySKUs]
      | num tb => simp [getProductsBySKUs]
      | str s2 => simp [getProductsBySKUs]
      | obj fs2 => simp [getProductsBySKUs]
    · intro h
      subst h
      simp [getProductsBySKUs]
    · intro xs hv herr
      subst hv
      cases hdb : env'.dbInit <;> simp [getProductsBySKUs, hdb, herr]

/-- Witness for C6: the concrete run with one SKU enriches the response
with the catalog row for that SKU. -/
theorem relatedProducts_enrichment_witness :
    ∃ body, (handleQuery envOk "/ask" "hi" "u1" "" []).1 = HttpResp.ok body ∧
      getField body "relatedProducts" =
        some (Json.arr (getProductsBySKUs envOk
          (Json.arr (([Json.str "SKU1"].map (coerceSku envOk)).map Json.str)))) :=
  (relatedProducts_enrichment envOk "/ask" "hi" "u1" "" [] pcW ""
    (Json.obj [("answer", Json.str "GOODJSON")]) "GOODJSON"
    (Json.obj [("answer", Json.str "Try this toy."),
               ("relatedProducts", Json.arr [Json.str "SKU1"])])
    "Try this toy." [Json.str "SKU1"]
    (by decide) rfl rfl rfl rfl rfl rfl rfl rfl rfl rfl).1

theorem getConversationHistory_effects (env : Env) (u : String) :
    (getConversationHistory env u).2 = [] ∨
    (getConversationHistory env u).2 = [Effect.addConversation u] := by
  unfold getConversationHistory
  (repeat' split) <;> first | exact Or.inl rfl | exact Or.inr rfl

theorem addConversationEntries_mem (env : Env) (u q b : String) (e : Effect)
    (he : e ∈ (addConversationEntries env u q b).2) :
    e = Effect.addEntry u "User" q env.now ∨ e = Effect.addEntry u "Bot" b env.now := by
  unfold addConversationEntries at he
  split at he
  · simp at he
  · split at he
    · simp at he
      exact Or.inl he
    · split at he <;> simp at he <;> rcases he with he | he <;>
        first | exact Or.inl he | exact Or.inr he

theorem addConversationEntries_success (env : Env) (u q b : String)
    (hs : env.storeInit = true) (hf : env.hasAddEntryFn = true)
    (h1 : env.addEntryOutcome1 = Except.ok ()) (h2 : env.addEntryOutcome2 = Except.ok ()) :
    addConversationEntries env u q b =
      (true, [Effect.addEntry u "User" q env.now, Effect.addEntry u "Bot" b env.now]) := by
  simp [addConversationEntries, hs, hf, h1, h2]

theorem setCachedResult_mem (env : Env) (u q : String) (md : Option Json) (data : Json)
    (e : Effect) (he : e ∈ (setCachedResult env u q md data).2) :
    e = Effect.customSet u (generateCacheKey env.stringifyMD u q md)
      (StoredDoc.cacheDoc data env.now) := by
  unfold setCachedResult at he
  split at he
  · simp at he
  · split at he
    · simp at he
    · split at he <;> simpa using he

theorem setCachedResult_success (env : Env) (u q : String) (md : Option Json) (data : Json)
    (hs : env.storeInit = true) (hf : env.hasCustomSetFn = true)
    (h1 : env.cacheSetOutcome = Except.ok ()) :
    setCachedResult env u q md data =
      (true, [Effect.customSet u (generateCacheKey env.stringifyMD u q md)
        (StoredDoc.cacheDoc data env.now)]) := by
  simp [setCachedResult, hs, hf, h1]

theorem summarizeEffects_not_entry_cache (env : Env) (u t : String) (e : Effect)
    (he : e ∈ (summarizeAndStoreMemory env u t).2) :
    isAddEntry e = false ∧ isCacheSet e = false := by
  rcases summarizeEffects_shape env u t e he with ⟨p, rfl⟩ | ⟨s, ts, rfl, _, _⟩ <;>
    exact ⟨rfl, rfl⟩

theorem isValid_marker {bot : Json} (h : isValidResponse bot = true) :
    ∃ a, getField bot "answer" = some (Json.str a) ∧ answerStringOf bot = a ∧
      sIncludes a fallbackMarker = false := by
  unfold isValidResponse at h
  rw [Bool.and_eq_true] at h
  obtain ⟨htr, hm⟩ := h
  rcases ha : getField bot "answer" with _ | v
  · rw [ha] at hm
    simp at hm
  · rw [ha] at hm
    cases v with
    | str a =>
      dsimp only at hm
      rw [Bool.and_eq_true, Bool.not_eq_true', Bool.not_eq_true'] at hm
      exact ⟨a, rfl, by unfold answerStringOf; rw [ha], hm.2⟩
    | null => simp at hm
    | bool b => simp at hm
    | num tb => simp at hm
    | arr l => simp at hm
    | obj fs => simp at hm

/-- C8. On the main path, `handleQuery` appends conversation entries and
writes the response cache only when the response is valid (non-empty
answer without the fallback marker); when valid and the store writes
succeed, exactly two entries are appended in order — the User entry with
the query, then the Bot entry with the answer — and the response is
cached as a `{ data, timestamp }` record under the cache key; hence no
attempted cached response or Bot entry ever holds the fallback answer. -/
theorem persistence_validity_gate (env : Env) (ep q uid uname : String) (ch : List Child)
    (pc : PromptConfig) (t : String) (result : Json)
    (hq : q ≠ "")
    (hpc : env.promptConfig = some pc)
    (hr : env.ragInit = true)
    (hmiss : getCachedResult env uid q (some (userMetadataJson uname ch)) = none)
    (hmem : getConversationMemory env uid = Json.str t)
    (hrag : env.ragOutcome = Except.ok result) :
    let bot := processLlmOutput env (jsOrChain result)
    let effs := (handleQuery env ep q uid uname ch).2
    (isValidResponse bot = false →
      ∀ e ∈ effs, isAddEntry e = false ∧ isCacheSet e = false) ∧
    (isValidResponse bot = true → env.storeInit = true → env.hasAddEntryFn = true →
      env.addEntryOutcome1 = Except.ok () → env.addEntryOutcome2 = Except.ok () →
      env.hasCustomSetFn = true → env.cacheSetOutcome = Except.ok () →
      effs.filter isAddEntry =
        [Effect.addEntry uid "User" q env.now,
         Effect.addEntry uid "Bot" (answerStringOf bot) env.now] ∧
      effs.filter isCacheSet =
        [Effect.customSet uid
          (generateCacheKey env.stringifyMD uid q (some (userMetadataJson uname ch)))
          (StoredDoc.cacheDoc bot env.now)]) ∧
    (∀ e ∈ effs,
      (∀ u' c τ, e = Effect.addEntry u' "Bot" c τ → sIncludes c fallbackMarker = false) ∧
      (∀ u' k d τ, e = Effect.customSet u' k (StoredDoc.cacheDoc d τ) →
        ∃ a2, getField d "answer" = some (Json.str a2) ∧
          sIncludes a2 fallbackMarker = false)) := by
  intro bot effs
  have heffs : effs =
      (getConversationHistory env uid).2 ++
      [Effect.llmQuery
        (buildPrompt pc uid uname ch t (entriesOf (getConversationHistory env uid).1) q)] ++
      (if isValidResponse bot then
        (addConversationEntries env uid q (answerStringOf bot)).2 ++
        (setCachedResult env uid q (some (userMetadataJson uname ch)) bot).2 ++
        (summarizeAndStoreMemory env uid pc.summarizationInstruction).2
      else []) := by
    show (handleQuery env ep q uid uname ch).2 = _
    rw [handleQuery_cacheMiss env ep q uid uname ch pc t hq hpc hr hmiss hmem]
    exact handleQueryMain_effects env pc q uid uname ch t result hrag
  have hbase : ∀ e, e ∈ (getConversationHistory env uid).2 ++
      [Effect.llmQuery
        (buildPrompt pc uid uname ch t (entriesOf (getConversationHistory env uid).1) q)] →
      isAddEntry e = false ∧ isCacheSet e = false := by
    intro e he
    rcases List.mem_append.mp he with hm | hm
    · rcases getConversationHistory_effects env uid with hH | hH <;> rw [hH] at hm
      · simp at hm
      · simp at hm
        subst hm
        exact ⟨rfl, rfl⟩
    · simp at hm
      subst hm
      exact ⟨rfl, rfl⟩
  have hvac : ∀ e, isAddEntry e = false → isCacheSet e = false →
      ((∀ u' c τ, e = Effect.addEntry u' "Bot" c τ → sIncludes c fallbackMarker = false) ∧
       (∀ u' k d τ, e = Effect.customSet u' k (StoredDoc.cacheDoc d τ) →
         ∃ a2, getField d "answer" = some (Json.str a2) ∧
           sIncludes a2 fallbackMarker = false)) := by
    intro e h1 h2
    constructor
    · intro u' c τ heq
      rw [heq] at h1
      exact absurd h1 (by simp [isAddEntry])
    · intro u' k d τ heq
      rw [heq] at h2
      exact absurd h2 (by simp [isCacheSet])
  have hSf : ∀ p : Effect → Bool, (∀ e, isAddEntry e = false → isCacheSet e = false →
        p e = false) →
      (summarizeAndStoreMemory env uid pc.summarizationInstruction).2.filter p = [] := by
    intro p hp
    refine List.filter_eq_nil_iff.mpr ?_
    intro a ha
    have := summarizeEffects_not_entry_cache env uid _ a ha
    simp [hp a this.1 this.2]
  refine ⟨?_, ?_, ?_⟩
  · intro hval e he
    rw [heffs, if_neg (by simp [hval]), List.append_nil] at he
    exact hbase e he
  · intro hval hs hf h1 h2 hcs hco
    have hA := addConversationEntries_success env uid q (answerStringOf bot) hs hf h1 h2
    have hC := setCachedResult_success env uid q (some (userMetadataJson uname ch)) bot
      hs hcs hco
    have hS1 : (summarizeAndStoreMemory env uid pc.summarizationInstruction).2.filter
        isAddEntry = [] := hSf isAddEntry (fun e he1 _ => he1)
    have hS2 : (summarizeAndStoreMemory env uid pc.summarizationInstruction).2.filter
        isCacheSet = [] := hSf isCacheSet (fun e _ he2 => he2)
    have hB1 : ((getConversationHistory env uid).2 ++
        [Effect.llmQuery
          (buildPrompt pc uid uname ch t (entriesOf (getConversationHistory env uid).1) q)]).filter
        isAddEntry = [] := by
      refine List.filter_eq_nil_iff.mpr ?_
      intro a ha
      simp [(hbase a ha).1]
    have hB2 : ((getConversationHistory env uid).2 ++
        [Effect.llmQuery
          (buildPrompt pc uid uname ch t (entriesOf (getConversationHistory env uid).1) q)]).filter
        isCacheSet = [] := by
      refine List.filter_eq_nil_iff.mpr ?_
      intro a ha
      simp [(hbase a ha).2]
    rw [heffs, if_pos hval, hA, hC]
    constructor
    · rw [List.filter_append, hB1]
      simp [List.filter_append, hS1, isAddEntry, isCacheSet]
    · rw [List.filter_append, hB2]
      simp [List.filter_append, hS2, isAddEntry, isCacheSet]
  · intro e he
    by_cases hval : isValidResponse bot = true
    · rw [heffs, if_pos hval] at he
      rcases List.mem_append.mp he with hm | hm
      · exact hvac e (hbase e hm).1 (hbase e hm).2
      · rcases List.mem_append.mp hm with hm2 | hm2
        · rcases List.mem_append.mp hm2 with hm3 | hm3
          · rcases addConversationEntries_mem env uid q (answerStringOf bot) e hm3
              with heq | heq
            · constructor
              · intro u' c τ heq2
                rw [heq] at heq2
                injection heq2 with e1 e2 e3 e4
                exact absurd e2 (by decide)
              · intro u' k d τ heq2
                rw [heq] at heq2
                exact absurd heq2 (by simp)
            · obtain ⟨a2, ha2, hans, hmk⟩ := isValid_marker hval
              constructor
              · intro u' c τ heq2
                rw [heq] at heq2
                injection heq2 with e1 e2 e3 e4
                rw [← e3, hans]
                exact hmk
              · intro u' k d τ heq2
                rw [heq] at heq2
                exact absurd heq2 (by simp)
          · have heq := setCachedResult_mem env uid q (some (userMetadataJson uname ch))
              bot e hm3
            obtain ⟨a2, ha2, hans, hmk⟩ := isValid_marker hval
            constructor
            · intro u' c τ heq2
              rw [heq] at heq2
              exact absurd heq2 (by simp)
            · intro u' k d τ heq2
              rw [heq] at heq2
              injection heq2 with e1 e2 e3
              injection e3 with ed eτ
              exact ⟨a2, by rw [← ed]; exact ha2, hmk⟩
        · have := summarizeEffects_not_entry_cache env uid _ e hm2
          exact hvac e this.1 this.2
    · rw [heffs, if_neg (by simp [hval]), List.append_nil] at he
      exact hvac e (hbase e he).1 (hbase e he).2

/-- Witness for C8: the concrete valid run appends exactly the User and
Bot entries in order and caches the enriched body under the cache key. -/
theorem persistence_validity_gate_witness :
    (handleQuery envOk "/ask" "hi" "u1" "" []).2.filter isAddEntry =
      [Effect.addEntry "u1" "User" "hi" 7,
       Effect.addEntry "u1" "Bot" "Try this toy." 7] ∧
    (handleQuery envOk "/ask" "hi" "u1" "" []).2.filter isCacheSet =
      [Effect.customSet "u1" "cache:u1:hi:md"
        (StoredDoc.cacheDoc (Json.obj
          [("answer", Json.str "Try this toy."),
           ("relatedProducts", Json.arr [Json.obj [("sku", Json.str "SKU1")]])]) 7)] :=
  (persistence_validity_gate envOk "/ask" "hi" "u1" "" [] pcW ""
    (Json.obj [("answer", Json.str "GOODJSON")])
    (by decide) rfl rfl rfl rfl rfl).2.1 rfl rfl rfl rfl rfl rfl rfl
